import Mathlib

/-!
Verification of the SpendWise backend against its specification.

The embedding below translates the route handlers of the repository
(`routes/expenseRoutes.js`, `routes/profileRoutes.js`,
`routes/authRoutes.js`, `middleware/authMiddleware.js`, `db.js`) into
pure Lean functions over explicit state.  Database tables become lists
of structures, a transaction becomes a function that either returns the
updated state (commit) or the original state (rollback), and HTTP
results become inductive result types carrying the status information
the handler produces.  Monetary values are modelled as integers and
dates as natural-number day indices (month indices for the monthly
summary), which preserves every comparison and aggregation the handlers
perform.
-/

namespace SpendWise

/-! ## Data model

`categories` table rows: `id`, `user_id` (nullable: shared defaults have
no owner), `label`.  Only the columns the verified routes read are kept.
-/

structure Category where
  id : Nat
  userId : Option Nat
  label : String
deriving Repr, DecidableEq

/-- `infodata` table rows (ledger entries), with the columns read by the
expense routes: `id`, `user_id`, `title`, `value`, `date` (day index),
`section`. -/
structure Item where
  id : Nat
  userId : Nat
  title : String
  value : Int
  date : Nat
  «section» : String
deriving Repr, DecidableEq

/-- The portion of the database state touched by the expense routes. -/
structure EState where
  categories : List Category
  infodata : List Item
deriving Repr, DecidableEq

/-! ## DELETE /items/custom-categories/:id (expenseRoutes.js)

The handler runs inside one transaction:
1. `SELECT label FROM categories WHERE id = ? AND user_id = ?`;
   if no row, rollback and 404;
2. `DELETE FROM infodata WHERE user_id = ? AND section = ?` (the label);
3. `DELETE FROM categories WHERE id = ? AND user_id = ?`;
   if `affectedRows = 0`, rollback and 404; otherwise commit and
   report `deletedTransactionsCount` = affected rows of step 2.
-/

/-- Row predicate of `WHERE id = ? AND user_id = ?` on `categories`. -/
def catMatches (cid u : Nat) (c : Category) : Bool :=
  c.id = cid && c.userId = some u

/-- Row predicate of `WHERE user_id = ? AND section = ?` on `infodata`. -/
def itemInSection (u : Nat) (label : String) (r : Item) : Bool :=
  r.userId = u && r.«section» = label

/-- Result of the cascade-delete handler: 404, or 200 with the
`deletedTransactionsCount` field of the JSON response. -/
inductive DelCatResult where
  | notFound
  | ok (deletedTransactionsCount : Nat)
deriving Repr, DecidableEq

/-- The cascade-delete transaction.  A rollback returns the original
state unchanged; a commit returns the state after both deletions. -/
def deleteCategoryCascade (st : EState) (cid u : Nat) : DelCatResult × EState :=
  match st.categories.filter (catMatches cid u) with
  | [] => (.notFound, st)
  | c :: _ =>
    let label := c.label
    let newInfodata := st.infodata.filter (fun r => !(itemInSection u label r))
    let deletedCount := st.infodata.countP (itemInSection u label)
    let newCategories := st.categories.filter (fun k => !(catMatches cid u k))
    let catAffected := st.categories.countP (catMatches cid u)
    if catAffected = 0 then (.notFound, st)
    else (.ok deletedCount, ⟨newCategories, newInfodata⟩)

/-- C1: after a successful cascade delete of a user's category, no ledger
row of that user has the deleted category's label as its section, and the
reported `deletedTransactionsCount` equals the number of that user's
ledger rows with that section that were deleted. -/
theorem deleteCategoryCascade_clears_section (st : EState) (cid u : Nat) (c : Category) (n : Nat)
    (hfind : (st.categories.filter (catMatches cid u)).head? = some c)
    (hok : (deleteCategoryCascade st cid u).1 = DelCatResult.ok n) :
    (deleteCategoryCascade st cid u).2.infodata.filter (itemInSection u c.label) = []
      ∧ n = st.infodata.countP (itemInSection u c.label) := by
  unfold deleteCategoryCascade at hok ⊢
  cases hfl : st.categories.filter (catMatches cid u) with
  | nil => rw [hfl] at hok; simp at hok
  | cons c0 rest =>
    rw [hfl] at hok hfind
    simp only [List.head?_cons, Option.some.injEq] at hfind
    subst hfind
    by_cases hz : st.categories.countP (catMatches cid u) = 0
    · simp [hz] at hok
    · simp only [hz, if_false] at hok ⊢
      refine ⟨?_, ?_⟩
      · simp [List.filter_filter]
      · simp only [DelCatResult.ok.injEq] at hok
        exact hok.symm

/-- Closed witness for C1 at a concrete state: user 7 owns category 1
labelled "Gym" with one matching ledger row. -/
theorem deleteCategoryCascade_clears_section_witness :
    ((EState.mk [⟨1, some 7, "Gym"⟩]
        [⟨1, 7, "a", 5, 0, "Gym"⟩, ⟨2, 7, "b", 3, 0, "Food"⟩]).categories.filter
          (catMatches 1 7)).head? = some ⟨1, some 7, "Gym"⟩
    ∧ (deleteCategoryCascade
        (EState.mk [⟨1, some 7, "Gym"⟩]
          [⟨1, 7, "a", 5, 0, "Gym"⟩, ⟨2, 7, "b", 3, 0, "Food"⟩]) 1 7).1 = DelCatResult.ok 1
    ∧ ((deleteCategoryCascade
        (EState.mk [⟨1, some 7, "Gym"⟩]
          [⟨1, 7, "a", 5, 0, "Gym"⟩, ⟨2, 7, "b", 3, 0, "Food"⟩]) 1 7).2.infodata.filter
            (itemInSection 7 "Gym") = []
      ∧ 1 = (EState.mk [⟨1, some 7, "Gym"⟩]
          [⟨1, 7, "a", 5, 0, "Gym"⟩, ⟨2, 7, "b", 3, 0, "Food"⟩]).infodata.countP
            (itemInSection 7 "Gym")) :=
  ⟨by decide, by decide,
    deleteCategoryCascade_clears_section _ 1 7 ⟨1, some 7, "Gym"⟩ 1 (by decide) (by decide)⟩

/-- C2: the cascade delete is atomic with respect to failure: if the
category lookup finds no row for that id and user, the handler answers
NotFound with the state unchanged; and whenever the handler answers
NotFound (including when the final category deletion affects zero rows),
the whole state — in particular every ledger row — is unchanged, i.e. the
cascading deletions are rolled back. -/
theorem deleteCategoryCascade_atomic (st : EState) (cid u : Nat)
    (h : st.categories.filter (catMatches cid u) = []
      ∨ (deleteCategoryCascade st cid u).1 = DelCatResult.notFound) :
    (deleteCategoryCascade st cid u).1 = DelCatResult.notFound
      ∧ (deleteCategoryCascade st cid u).2 = st := by
  have hnf : (deleteCategoryCascade st cid u).1 = DelCatResult.notFound := by
    rcases h with hnil | hnf
    · unfold deleteCategoryCascade
      rw [hnil]
    · exact hnf
  refine ⟨hnf, ?_⟩
  unfold deleteCategoryCascade at hnf ⊢
  cases hfl : st.categories.filter (catMatches cid u) with
  | nil => rfl
  | cons c0 rest =>
    rw [hfl] at hnf
    by_cases hz : st.categories.countP (catMatches cid u) = 0
    · simp [hz]
    · simp [hz] at hnf

/-- Closed witness for C2: with an empty category table the lookup fails,
the handler answers NotFound, and the state is unchanged. -/
theorem deleteCategoryCascade_atomic_witness :
    (deleteCategoryCascade (EState.mk [] [⟨1, 7, "a", 5, 0, "Gym"⟩]) 1 7).1
        = DelCatResult.notFound
    ∧ (deleteCategoryCascade (EState.mk [] [⟨1, 7, "a", 5, 0, "Gym"⟩]) 1 7).2
        = EState.mk [] [⟨1, 7, "a", 5, 0, "Gym"⟩] :=
  deleteCategoryCascade_atomic (EState.mk [] [⟨1, 7, "a", 5, 0, "Gym"⟩]) 1 7
    (Or.inl (by decide))

/-! ## retryOperation (db.js)

```js
async function retryOperation(operation, maxRetries = 3) {
  let lastError;
  for (let i = 0; i < maxRetries; i++) {
    try { return await operation(); }
    catch (error) {
      lastError = error;
      if (error.code === 'ER_USER_LIMIT_REACHED') {
        await new Promise(r => setTimeout(r, 1000 * (i + 1)));
        continue;
      }
      throw error;
    }
  }
  throw lastError;
}
```

The operation is modelled as a stream of call outcomes `op : Nat →
Except String α` (the `i`-th call either returns a value or throws an
error identified by its `code` string).  `retryAux` returns the final
outcome together with the list of `setTimeout` delays performed, in
order.  The recursion is on the remaining loop iterations (`fuel =
maxRetries - i`).
-/

def retryAux {α : Type} (op : Nat → Except String α) :
    Nat → Nat → Option String → Except String α × List Nat
  | _, 0, lastError => (Except.error (lastError.getD "undefined"), [])
  | i, fuel + 1, _ =>
    match op i with
    | Except.ok v => (Except.ok v, [])
    | Except.error c =>
      if c = "ER_USER_LIMIT_REACHED" then
        let r := retryAux op (i + 1) fuel (some c)
        (r.1, 1000 * (i + 1) :: r.2)
      else (Except.error c, [])

/-- `retryOperation` as in db.js: run `op` up to `maxRetries` times
starting from attempt 0.  Result: the returned value or the thrown
error, paired with the list of delays slept (in milliseconds). -/
def retryOperation {α : Type} (op : Nat → Except String α) (maxRetries : Nat) :
    Except String α × List Nat :=
  retryAux op 0 maxRetries none

/-- C4: with `maxRetries = 3`, (a) a failure whose code is not
`ER_USER_LIMIT_REACHED` at attempt `i` (after `i` transient failures)
propagates immediately, with exactly the linear delays `1000·1, …,
1000·i` slept before the earlier retries; (b) if every attempt fails
with the transient code, the last failure is re-raised after linear
(not exponential) delays `1000, 2000, 3000`; (c) a success at attempt
`i` after `i` transient failures returns its value, again after linear
delays — so the delay before retry `k` is `k × 1000`. -/
theorem retryOperation_spec {α : Type} (op : Nat → Except String α) :
    (∀ i, i < 3 → (∀ j, j < i → op j = Except.error "ER_USER_LIMIT_REACHED") →
      ∀ c, op i = Except.error c → c ≠ "ER_USER_LIMIT_REACHED" →
        retryOperation op 3
          = (Except.error c, (List.range i).map (fun j => 1000 * (j + 1))))
    ∧ ((∀ j, j < 3 → op j = Except.error "ER_USER_LIMIT_REACHED") →
      retryOperation op 3
        = (Except.error "ER_USER_LIMIT_REACHED", [1000, 2000, 3000]))
    ∧ (∀ i, i < 3 → (∀ j, j < i → op j = Except.error "ER_USER_LIMIT_REACHED") →
      ∀ v, op i = Except.ok v →
        retryOperation op 3
          = (Except.ok v, (List.range i).map (fun j => 1000 * (j + 1)))) := by
  refine ⟨?_, ?_, ?_⟩
  · intro i hi hprev c hop hc
    interval_cases i
    · simp [retryOperation, retryAux, hop, hc]
    · have h0 := hprev 0 (by norm_num)
      simp [retryOperation, retryAux, h0, hop, hc, List.range_succ]
    · have h0 := hprev 0 (by norm_num)
      have h1 := hprev 1 (by norm_num)
      simp [retryOperation, retryAux, h0, h1, hop, hc, List.range_succ]
  · intro hall
    have h0 := hall 0 (by norm_num)
    have h1 := hall 1 (by norm_num)
    have h2 := hall 2 (by norm_num)
    simp [retryOperation, retryAux, h0, h1, h2]
  · intro i hi hprev v hop
    interval_cases i
    · simp [retryOperation, retryAux, hop]
    · have h0 := hprev 0 (by norm_num)
      simp [retryOperation, retryAux, h0, hop, List.range_succ]
    · have h0 := hprev 0 (by norm_num)
      have h1 := hprev 1 (by norm_num)
      simp [retryOperation, retryAux, h0, h1, hop, List.range_succ]

/-- Closed witness for C4: an operation that fails once with the
transient code and then succeeds is retried exactly once, after a single
1000 ms delay. -/
theorem retryOperation_spec_witness :
    retryOperation
      (fun j => if j = 0 then (Except.error "ER_USER_LIMIT_REACHED" : Except String Nat)
        else Except.ok 42) 3
      = (Except.ok 42, [1000]) := by
  have h := (retryOperation_spec
      (fun j => if j = 0 then (Except.error "ER_USER_LIMIT_REACHED" : Except String Nat)
        else Except.ok 42)).2.2 1 (by norm_num)
      (by intro j hj; interval_cases j; rfl) 42 (by rfl)
  simpa using h

/-! ## verifyToken (middleware/authMiddleware.js)

The token library (`jwt.verify`) is external; it is modelled as a
function from the token string to an outcome: valid claims, a
`TokenExpiredError`, or one of the other verification failures
(malformed token, bad signature), which the middleware does not
distinguish from each other.
-/

/-- JS `String.prototype.split(" ")` on characters: split at every
single space, keeping empty fields, as JS does (`"".split(" ") = [""]`,
`"a ".split(" ") = ["a", ""]`). -/
def splitSpAux : List Char → List Char → List String
  | [], acc => [String.mk acc.reverse]
  | c :: cs, acc =>
    if c = ' ' then String.mk acc.reverse :: splitSpAux cs []
    else splitSpAux cs (c :: acc)

/-- `s.split(" ")` of JS. -/
def jsSplitSpace (s : String) : List String := splitSpAux s.data []

/-- Outcome of `jwt.verify` on a token string. -/
inductive VerifyOutcome where
  | valid (userId : Nat) (email : String)
  | expired
  | malformed
  | badSignature
deriving Repr, DecidableEq

/-- Result of the middleware: reject with an HTTP status and `error`
message, or attach the decoded claims to the request and continue. -/
inductive MwResult where
  | reject (status : Nat) (error : String)
  | proceed (userId : Nat) (email : String)
deriving Repr, DecidableEq

/-- The `verifyToken` middleware.  `authHeader` is the value of the
`Authorization` header if present.  The token is `header.split(" ")[1]`;
a missing or empty token is falsy in JS and is rejected with 401. -/
def verifyToken (verify : String → VerifyOutcome) (authHeader : Option String) : MwResult :=
  match authHeader with
  | none => .reject 401 "No authorization header"
  | some h =>
    match (jsSplitSpace h)[1]? with
    | none => .reject 401 "No token provided"
    | some t =>
      if t = "" then .reject 401 "No token provided"
      else
        match verify t with
        | .valid uid email => .proceed uid email
        | .expired => .reject 403 "Token expired"
        | .malformed => .reject 403 "Invalid token"
        | .badSignature => .reject 403 "Invalid token"

/-- C7: a missing Authorization header or missing/empty bearer token is
rejected with 401; a present token whose verification fails is rejected
with 403, where expiry is distinguished from malformed/bad-signature
tokens only in the error message. -/
theorem verifyToken_statuses (verify : String → VerifyOutcome) (authHeader : Option String) :
    (authHeader = none →
      verifyToken verify authHeader = MwResult.reject 401 "No authorization header")
    ∧ (∀ h, authHeader = some h →
        (jsSplitSpace h)[1]? = none ∨ (jsSplitSpace h)[1]? = some "" →
        verifyToken verify authHeader = MwResult.reject 401 "No token provided")
    ∧ (∀ h t, authHeader = some h → (jsSplitSpace h)[1]? = some t → t ≠ "" →
        (verify t = VerifyOutcome.expired →
          verifyToken verify authHeader = MwResult.reject 403 "Token expired")
        ∧ ((verify t = VerifyOutcome.malformed ∨ verify t = VerifyOutcome.badSignature) →
          verifyToken verify authHeader = MwResult.reject 403 "Invalid token")
        ∧ (verifyToken verify authHeader = MwResult.reject 403 "Token expired" →
          verify t = VerifyOutcome.expired)) := by
  refine ⟨?_, ?_, ?_⟩
  · intro hnone; subst hnone; rfl
  · intro h hh hbad
    subst hh
    rcases hbad with hnone | hempty
    · simp [verifyToken, hnone]
    · simp [verifyToken, hempty]
  · intro h t hh ht hne
    subst hh
    refine ⟨?_, ?_, ?_⟩
    · intro hexp
      simp [verifyToken, ht, hne, hexp]
    · intro hinv
      rcases hinv with hm | hb
      · simp [verifyToken, ht, hne, hm]
      · simp [verifyToken, ht, hne, hb]
    · intro hres
      cases hv : verify t with
      | valid uid email => simp [verifyToken, ht, hne, hv] at hres
      | expired => rfl
      | malformed => simp [verifyToken, ht, hne, hv] at hres
      | badSignature => simp [verifyToken, ht, hne, hv] at hres

/-- Closed witness for C7: a decoder under which the presented bearer
token is expired yields a 403 rejection with the expiry message. -/
theorem verifyToken_statuses_witness :
    verifyToken
      (fun t => if t = "old" then VerifyOutcome.expired else VerifyOutcome.malformed)
      (some "Bearer old") = MwResult.reject 403 "Token expired" :=
  (((verifyToken_statuses
      (fun t => if t = "old" then VerifyOutcome.expired else VerifyOutcome.malformed)
      (some "Bearer old")).2.2 "Bearer old" "old" rfl (by decide) (by decide)).1 (by decide))

/-! ## GET /items/summary (expenseRoutes.js)

One aggregate query:
`SUM(CASE WHEN section != 'Income' THEN value ELSE 0 END) AS total_expenses,
 COUNT(id) AS total_count` over the rows matching
`user_id = ?` plus the optional category / fromDate / toDate filters.
A category filter is added only when the parameter is present (non-empty
string, JS truthiness) and not the special value `All`; date parameters
are `Option Nat` day indices, absent when not supplied.
-/

/-- Row predicate of the summary query's WHERE clause. -/
def summaryMatches (u : Nat) (category : Option String) (fromDate toDate : Option Nat)
    (r : Item) : Bool :=
  r.userId = u
    && (match category with
        | none => true
        | some s => if s = "" || s = "All" then true else r.«section» = s)
    && (match fromDate with | none => true | some d => decide (d ≤ r.date))
    && (match toDate with | none => true | some d => decide (r.date ≤ d))

/-- The summary response `(totalExpenses, totalCount)`. -/
def getSummary (rows : List Item) (u : Nat) (category : Option String)
    (fromDate toDate : Option Nat) : Int × Nat :=
  let matching := rows.filter (summaryMatches u category fromDate toDate)
  ((matching.map (fun r => if r.«section» = "Income" then 0 else r.value)).sum,
    matching.length)

/-- Summing `CASE WHEN p THEN 0 ELSE f END` equals summing `f` over the
rows where `p` fails. -/
theorem sum_map_ite_zero {α : Type} (l : List α) (p : α → Prop) [DecidablePred p]
    (f : α → Int) :
    (l.map (fun r => if p r then 0 else f r)).sum
      = ((l.filter (fun r => !(decide (p r)))).map f).sum := by
  induction l with
  | nil => rfl
  | cons a t ih => by_cases h : p a <;> simp [h, ih]

/-- A filter misses at least one element of the list when some member
fails the predicate, so its length is strictly smaller. -/
theorem length_filter_lt_of_mem_not {α : Type} (l : List α) (p : α → Bool) (a : α)
    (ha : a ∈ l) (hpa : p a = false) : (l.filter p).length < l.length := by
  induction l with
  | nil => cases ha
  | cons b t ih =>
    rcases List.mem_cons.mp ha with rfl | hmem
    · have hle := List.length_filter_le p t
      simp [List.filter_cons, hpa]
      omega
    · by_cases hb : p b = true
      · have := ih hmem
        simp [List.filter_cons, hb]
        omega
      · have hb' : p b = false := by revert hb; cases p b <;> simp
        have := ih hmem
        simp [List.filter_cons, hb']
        omega

/-- C9: in the period summary, `totalExpenses` is the sum of the values
of the matching rows whose section is not "Income", while `totalCount`
counts every matching row including "Income" rows; so whenever an
"Income" row matches the filters, the counted set is strictly larger
than the summed set. -/
theorem getSummary_count_includes_income (rows : List Item) (u : Nat)
    (category : Option String) (fromDate toDate : Option Nat)
    (hinc : ∃ r ∈ rows, summaryMatches u category fromDate toDate r = true
      ∧ r.«section» = "Income") :
    (getSummary rows u category fromDate toDate).1
      = (((rows.filter (summaryMatches u category fromDate toDate)).filter
          (fun r => !(r.«section» = "Income"))).map (fun r => r.value)).sum
    ∧ (getSummary rows u category fromDate toDate).2
      = (rows.filter (summaryMatches u category fromDate toDate)).length
    ∧ ((rows.filter (summaryMatches u category fromDate toDate)).filter
          (fun r => !(r.«section» = "Income"))).length
        < (getSummary rows u category fromDate toDate).2 := by
  refine ⟨?_, rfl, ?_⟩
  · unfold getSummary
    dsimp only
    exact sum_map_ite_zero _ (fun r : Item => r.«section» = "Income") (fun r => r.value)
  · unfold getSummary
    dsimp only
    rcases hinc with ⟨r, hr, hm, hs⟩
    have hrmem : r ∈ rows.filter (summaryMatches u category fromDate toDate) :=
      List.mem_filter.mpr ⟨hr, hm⟩
    exact length_filter_lt_of_mem_not _ _ r hrmem (by simp [hs])

/-- Closed witness for C9 at a concrete input: one "Income" row and one
"Food" row match; the sum covers only the "Food" row but the count is 2.
-/
theorem getSummary_count_includes_income_witness :
    (getSummary [⟨1, 7, "pay", 100, 5, "Income"⟩, ⟨2, 7, "b", 30, 6, "Food"⟩] 7
        none none none).1
      = ((([⟨1, 7, "pay", 100, 5, "Income"⟩,
            (⟨2, 7, "b", 30, 6, "Food"⟩ : Item)].filter (summaryMatches 7 none none none)).filter
          (fun r => !(r.«section» = "Income"))).map (fun r => r.value)).sum
    ∧ (getSummary [⟨1, 7, "pay", 100, 5, "Income"⟩, ⟨2, 7, "b", 30, 6, "Food"⟩] 7
        none none none).2
      = ([⟨1, 7, "pay", 100, 5, "Income"⟩,
          (⟨2, 7, "b", 30, 6, "Food"⟩ : Item)].filter (summaryMatches 7 none none none)).length
    ∧ (([⟨1, 7, "pay", 100, 5, "Income"⟩,
          (⟨2, 7, "b", 30, 6, "Food"⟩ : Item)].filter (summaryMatches 7 none none none)).filter
            (fun r => !(r.«section» = "Income"))).length
        < (getSummary [⟨1, 7, "pay", 100, 5, "Income"⟩, ⟨2, 7, "b", 30, 6, "Food"⟩] 7
            none none none).2 :=
  getSummary_count_includes_income
    [⟨1, 7, "pay", 100, 5, "Income"⟩, ⟨2, 7, "b", 30, 6, "Food"⟩] 7 none none none
    ⟨⟨1, 7, "pay", 100, 5, "Income"⟩, by decide, by decide, by decide⟩

/-! ## GET /items (expenseRoutes.js)

Pagination: `const page = parseInt(req.query._page) || 1;
const limit = parseInt(req.query._limit) || 10;
const offset = (page - 1) * limit;` and the listing query ends with
`ORDER BY date DESC, id DESC LIMIT ? OFFSET ?`.
The WHERE clause is the same `user_id` / category / date-range filter as
the summary (`summaryMatches`).  MySQL accepts only nonnegative integers
for `LIMIT` and `OFFSET`; a negative bound is a parse error, which the
handler's error callback turns into a 500 response — this is modelled by
the `Except.error 500` branch.
-/

/-- JS `parseInt(q) || d`: an absent or non-numeric parameter gives
`NaN` (falsy) and `0` is falsy too, so both fall back to the default. -/
def jsIntOr (q : Option Int) (d : Int) : Int :=
  match q with
  | none => d
  | some n => if n = 0 then d else n

/-- `ORDER BY date DESC, id DESC`: `a` sorts no later than `b`. -/
def orderDateDesc (a b : Item) : Bool :=
  b.date < a.date || (a.date = b.date && b.id ≤ a.id)

/-- Insert into a list already sorted by `orderDateDesc`. -/
def insertDateDesc (r : Item) : List Item → List Item
  | [] => [r]
  | b :: t => if orderDateDesc r b then r :: b :: t else b :: insertDateDesc r t

/-- Stable sort by `date DESC, id DESC`. -/
def sortDateDesc : List Item → List Item
  | [] => []
  | a :: t => insertDateDesc a (sortDateDesc t)

/-- The listing handler: filter, order, and page the rows; fail with 500
when the computed `LIMIT`/`OFFSET` pair is rejected by the database. -/
def listItems (rows : List Item) (u : Nat) (category : Option String)
    (fromDate toDate : Option Nat) (pageQ limitQ : Option Int) : Except Nat (List Item) :=
  let page := jsIntOr pageQ 1
  let limit := jsIntOr limitQ 10
  let offset := (page - 1) * limit
  if limit < 0 ∨ offset < 0 then Except.error 500
  else
    Except.ok (((sortDateDesc
        (rows.filter (summaryMatches u category fromDate toDate))).drop offset.toNat).take
          limit.toNat)

/-- C6 (code bug): a page size `_limit = 0` is normalized to the default
10 (JS `0 || 10`), and a page number of 0 is normalized to page 1 — but
a negative `_page` is not rejected or normalized: it produces a negative
SQL `OFFSET`, the database rejects the query, and the route answers 500,
an internal failure. -/
theorem listItems_pagination_boundary :
    jsIntOr (some 0) 10 = 10
    ∧ jsIntOr (some 0) 1 = 1
    ∧ listItems [⟨1, 7, "a", 5, 3, "Food"⟩] 7 none none none (some 0) (some 0)
        = Except.ok [⟨1, 7, "a", 5, 3, "Food"⟩]
    ∧ listItems [⟨1, 7, "a", 5, 3, "Food"⟩] 7 none none none (some (-2)) (some 10)
        = Except.error 500 := by
  refine ⟨rfl, rfl, ?_, ?_⟩ <;> rfl

/-! ## POST /refresh-token (authRoutes.js)

```js
const decoded = jwt.verify(refreshToken, REFRESH_KEY);
const [users] = await pool.promise().query(
  "SELECT * FROM users WHERE id = ? AND refresh_token = ?", [decoded.userId, refreshToken]);
if (users.length === 0) return res.status(401).json({ error: "Invalid refresh token" });
const newToken = jwt.sign({ userId: user.id, email: user.email }, SECRET_KEY, ...);
```

`jwt.verify` is modelled by a `decode` function returning the decoded
`userId` or `none` (a thrown verification error, caught as 401).  The
route performs no write: the users table it returns is the one it was
given.
-/

/-- `users` table rows as read by the auth routes. -/
structure AuthUser where
  id : Nat
  email : String
  refreshToken : Option String
deriving Repr, DecidableEq

/-- An access token as produced by `jwt.sign({ userId, email }, SECRET_KEY)`,
identified by its payload. -/
structure AccessToken where
  userId : Nat
  email : String
deriving Repr, DecidableEq

/-- Response of the refresh route: 401, or 200 with a new access token. -/
inductive RefreshResult where
  | unauthorized
  | ok (token : AccessToken)
deriving Repr, DecidableEq

/-- The refresh-token handler, returning the response and the users
table after the call. -/
def refreshTokenRoute (decode : String → Option Nat) (users : List AuthUser)
    (refreshToken : Option String) : RefreshResult × List AuthUser :=
  match refreshToken with
  | none => (.unauthorized, users)
  | some tok =>
    if tok = "" then (.unauthorized, users)
    else
      match decode tok with
      | none => (.unauthorized, users)
      | some uid =>
        match users.filter (fun usr => usr.id = uid && usr.refreshToken = some tok) with
        | [] => (.unauthorized, users)
        | usr :: _ => (.ok ⟨usr.id, usr.email⟩, users)

/-- C8: the refresh call never changes the stored users (in particular
the stored refresh token), and a new access token is issued precisely
when the presented token decodes to a user id whose stored refresh token
equals the presented token. -/
theorem refreshTokenRoute_frame_and_issuance (decode : String → Option Nat)
    (users : List AuthUser) (rt : Option String) :
    (refreshTokenRoute decode users rt).2 = users
    ∧ (∀ tok, rt = some tok → tok ≠ "" →
        ((∃ t, (refreshTokenRoute decode users rt).1 = RefreshResult.ok t)
          ↔ (∃ uid, decode tok = some uid
              ∧ ∃ usr ∈ users, usr.id = uid ∧ usr.refreshToken = some tok))) := by
  constructor
  · unfold refreshTokenRoute
    repeat' split
    all_goals rfl
  · intro tok hrt hne
    subst hrt
    unfold refreshTokenRoute
    simp only [hne, if_false]
    cases hd : decode tok with
    | none =>
      dsimp only
      constructor
      · rintro ⟨t, ht⟩; cases ht
      · rintro ⟨uid, huid, -⟩; cases huid
    | some uid =>
      dsimp only
      cases hf : users.filter (fun usr => usr.id = uid && usr.refreshToken = some tok) with
      | nil =>
        dsimp only
        constructor
        · rintro ⟨t, ht⟩; cases ht
        · rintro ⟨uid2, huid2, usr, hmem, hid, htok⟩
          injection huid2 with huid2
          subst huid2
          have hmf : usr ∈ users.filter
              (fun usr => usr.id = uid && usr.refreshToken = some tok) :=
            List.mem_filter.mpr ⟨hmem, by simp [hid, htok]⟩
          rw [hf] at hmf
          cases hmf
      | cons usr rest =>
        dsimp only
        constructor
        · intro _
          have husr : usr ∈ users.filter
              (fun usr => usr.id = uid && usr.refreshToken = some tok) := by
            rw [hf]; exact List.mem_cons_self usr rest
          have h2 := List.mem_filter.mp husr
          have h3 := h2.2
          simp only [Bool.and_eq_true, decide_eq_true_eq] at h3
          exact ⟨uid, rfl, usr, h2.1, h3.1, h3.2⟩
        · intro _
          exact ⟨⟨usr.id, usr.email⟩, rfl⟩

/-- Closed witness for C8: a user whose stored refresh token equals the
presented one gets a new access token, and the users table is unchanged.
-/
theorem refreshTokenRoute_frame_and_issuance_witness :
    (refreshTokenRoute (fun t => if t = "rt1" then some 7 else none)
        [⟨7, "a@x.com", some "rt1"⟩] (some "rt1")).2 = [⟨7, "a@x.com", some "rt1"⟩]
    ∧ (∃ t, (refreshTokenRoute (fun t => if t = "rt1" then some 7 else none)
        [⟨7, "a@x.com", some "rt1"⟩] (some "rt1")).1 = RefreshResult.ok t) :=
  ⟨(refreshTokenRoute_frame_and_issuance (fun t => if t = "rt1" then some 7 else none)
      [⟨7, "a@x.com", some "rt1"⟩] (some "rt1")).1,
    ((refreshTokenRoute_frame_and_issuance (fun t => if t = "rt1" then some 7 else none)
      [⟨7, "a@x.com", some "rt1"⟩] (some "rt1")).2 "rt1" rfl (by decide)).mpr
      ⟨7, by decide, ⟨7, "a@x.com", some "rt1"⟩, by decide, by decide, by decide⟩⟩

/-! ## profileRoutes.js: balance and income transactions

`users` rows carry a nullable `balance` column; the handlers read it as
`parseFloat(row.balance) || 0`, i.e. `Option.getD 0` here.  `infodata`
inserts use the table's auto-increment id, modelled by a `nextId`
counter in the state.  Only the columns these two handlers touch are
modelled (`target`, `payment_mode` and `notes` are constants in the
insert and never read back by the verified claims).
-/

structure UserRow where
  id : Nat
  email : String
  balance : Option Int
deriving Repr, DecidableEq

/-- Database state for the profile routes. -/
structure PState where
  users : List UserRow
  infodata : List Item
  nextId : Nat
deriving Repr, DecidableEq

/-- `UPDATE users SET balance = ? WHERE id = ?`. -/
def updateBalance (users : List UserRow) (u : Nat) (b : Int) : List UserRow :=
  users.map (fun usr => if usr.id = u then { usr with balance := some b } else usr)

/-- Response of POST /profile/balance/add. -/
inductive AddBalanceResult where
  | badRequest
  | userNotFound
  | ok (newBalance : Int)
deriving Repr, DecidableEq

/-- POST /profile/balance/add: validate the amount (a positive number),
read the balance under `FOR UPDATE`, write the new balance, and insert a
matching `"Income"` ledger row — all in one transaction (`now` is the
insertion date). -/
def addBalance (st : PState) (u : Nat) (amount : Int) (now : Nat) :
    AddBalanceResult × PState :=
  if amount ≤ 0 then (.badRequest, st)
  else
    match st.users.find? (fun usr => usr.id = u) with
    | none => (.userNotFound, st)
    | some usr =>
      let currentBalance := usr.balance.getD 0
      let newBalance := currentBalance + amount
      let newRow : Item := ⟨st.nextId, u, "Balance Addition", amount, now, "Income"⟩
      (.ok newBalance,
        ⟨updateBalance st.users u newBalance, st.infodata ++ [newRow], st.nextId + 1⟩)

/-- Sequential composition of N deposits, as in claim C3. -/
def addBalanceRun (st : PState) (u : Nat) (amounts : List Int) (now : Nat) : PState :=
  amounts.foldl (fun s a => (addBalance s u a now).2) st

/-- The ledger rows created by a sequence of deposits, with consecutive
auto-increment ids. -/
def balanceRows (u : Nat) (i : Nat) (now : Nat) : List Int → List Item
  | [] => []
  | a :: rest => ⟨i, u, "Balance Addition", a, now, "Income"⟩ :: balanceRows u (i + 1) now rest

/-- `find?` after a balance update returns the found user with the new
balance. -/
theorem find_updateBalance (users : List UserRow) (u : Nat) (b : Int) :
    (updateBalance users u b).find? (fun x => x.id = u)
      = (users.find? (fun x => x.id = u)).map (fun x => { x with balance := some b }) := by
  induction users with
  | nil => rfl
  | cons y t ih =>
    by_cases hy : y.id = u
    · simp [updateBalance, List.find?_cons, hy]
    · simp only [updateBalance, List.map_cons] at ih ⊢
      rw [if_neg hy]
      rw [List.find?_cons_of_neg _ (by simp [hy]), List.find?_cons_of_neg _ (by simp [hy])]
      exact ih

/-- Shape of the rows produced by `balanceRows`: one row per deposit, in
order, each tagged "Income" with the deposit as its value. -/
theorem balanceRows_shape (u now : Nat) (amounts : List Int) :
    ∀ i : Nat,
      (balanceRows u i now amounts).map (fun r => r.value) = amounts
      ∧ (balanceRows u i now amounts).length = amounts.length
      ∧ ∀ r ∈ balanceRows u i now amounts, r.«section» = "Income" := by
  induction amounts with
  | nil => intro i; exact ⟨rfl, rfl, by intro r hr; cases hr⟩
  | cons a rest ih =>
    intro i
    obtain ⟨h1, h2, h3⟩ := ih (i + 1)
    refine ⟨?_, ?_, ?_⟩
    · simp [balanceRows, h1]
    · simp [balanceRows, h2]
    · intro r hr
      rcases List.mem_cons.mp hr with rfl | hmem
      · rfl
      · exact h3 r hmem

/-- Accumulation core for C3: from any state where the user exists,
running the deposits leaves the stored balance (read as
`parseFloat || 0`) at its initial reading plus the sum, and appends
exactly the `balanceRows`. -/
theorem addBalanceRun_spec (u now : Nat) (amounts : List Int) :
    ∀ (st : PState) (usr : UserRow),
      st.users.find? (fun x => x.id = u) = some usr →
      (∀ a ∈ amounts, 0 < a) →
      ((addBalanceRun st u amounts now).users.find? (fun x => x.id = u)).map
          (fun x => x.balance.getD 0) = some (usr.balance.getD 0 + amounts.sum)
      ∧ (addBalanceRun st u amounts now).infodata
          = st.infodata ++ balanceRows u st.nextId now amounts := by
  induction amounts with
  | nil =>
    intro st usr hfind hpos
    simp [addBalanceRun, balanceRows, hfind]
  | cons a rest ih =>
    intro st usr hfind hpos
    have ha : 0 < a := hpos a (List.mem_cons_self _ _)
    have hneg : ¬ a ≤ 0 := by omega
    have hs1eq : (addBalance st u a now).2
        = ⟨updateBalance st.users u (usr.balance.getD 0 + a),
            st.infodata ++ [⟨st.nextId, u, "Balance Addition", a, now, "Income"⟩],
            st.nextId + 1⟩ := by
      unfold addBalance
      rw [if_neg hneg, hfind]
    have hfind1 : (addBalance st u a now).2.users.find? (fun x => x.id = u)
        = some { usr with balance := some (usr.balance.getD 0 + a) } := by
      rw [hs1eq]
      dsimp only
      rw [find_updateBalance, hfind]
      rfl
    have hrun : addBalanceRun st u (a :: rest) now
        = addBalanceRun (addBalance st u a now).2 u rest now := rfl
    obtain ⟨ihb, ihr⟩ := ih (addBalance st u a now).2 _ hfind1
      (fun x hx => hpos x (List.mem_cons_of_mem _ hx))
    constructor
    · rw [hrun, ihb]
      simp [Int.add_assoc]
    · rw [hrun, ihr, hs1eq]
      simp [balanceRows, List.append_assoc]

/-- C3: for a user present in the table and any sequence of valid
(positive) deposit amounts, running the deposit handler sequentially
yields a final stored balance equal to the initial balance plus the sum
of the amounts, and appends exactly N new "Income" ledger rows whose
values are the respective amounts; moreover each single call either
leaves the state entirely unchanged (failure) or performs the balance
write and the ledger insertion together (success). -/
theorem adjustBalance_accumulates (st : PState) (u now : Nat) (amounts : List Int)
    (usr : UserRow)
    (hfind : st.users.find? (fun x => x.id = u) = some usr)
    (hpos : ∀ a ∈ amounts, 0 < a) :
    ((addBalanceRun st u amounts now).users.find? (fun x => x.id = u)).map
        (fun x => x.balance.getD 0) = some (usr.balance.getD 0 + amounts.sum)
    ∧ (addBalanceRun st u amounts now).infodata
        = st.infodata ++ balanceRows u st.nextId now amounts
    ∧ (balanceRows u st.nextId now amounts).map (fun r => r.value) = amounts
    ∧ (balanceRows u st.nextId now amounts).length = amounts.length
    ∧ (∀ r ∈ balanceRows u st.nextId now amounts, r.«section» = "Income")
    ∧ (∀ (s : PState) (a : Int),
        (addBalance s u a now).2 = s
        ∨ ∃ b : Int, (addBalance s u a now).2
            = ⟨updateBalance s.users u b,
                s.infodata ++ [⟨s.nextId, u, "Balance Addition", a, now, "Income"⟩],
                s.nextId + 1⟩) := by
  obtain ⟨hb, hr⟩ := addBalanceRun_spec u now amounts st usr hfind hpos
  obtain ⟨h1, h2, h3⟩ := balanceRows_shape u now amounts st.nextId
  refine ⟨hb, hr, h1, h2, h3, ?_⟩
  intro s a
  by_cases hale : a ≤ 0
  · left; unfold addBalance; rw [if_pos hale]
  · cases hfs : s.users.find? (fun usr => usr.id = u) with
    | none => left; unfold addBalance; rw [if_neg hale, hfs]
    | some usr2 =>
      right
      refine ⟨usr2.balance.getD 0 + a, ?_⟩
      unfold addBalance
      rw [if_neg hale, hfs]

/-- Closed witness for C3: starting from a `NULL` balance, depositing 5
then 3 yields a stored balance of 8. -/
theorem adjustBalance_accumulates_witness :
    ((addBalanceRun (PState.mk [⟨7, "e", none⟩] [] 10) 7 [5, 3] 0).users.find?
        (fun x => x.id = 7)).map (fun x => x.balance.getD 0)
      = some ((UserRow.mk 7 "e" none).balance.getD 0 + ([5, 3] : List Int).sum) :=
  (adjustBalance_accumulates (PState.mk [⟨7, "e", none⟩] [] 10) 7 0 [5, 3]
    ⟨7, "e", none⟩ rfl (by decide)).1

/-! ## DELETE /profile/income-transactions/delete/:id (profileRoutes.js)

One transaction: `SELECT value FROM infodata WHERE id = ? AND user_id = ?
AND section = 'Income'`; if no row, rollback and 404; otherwise
`DELETE FROM infodata WHERE id = ? AND user_id = ?`, then
`SELECT balance FROM users WHERE id = ? FOR UPDATE` and, when the user
row exists, `UPDATE users SET balance = ?` with the old reading
(`parseFloat || 0`) minus the deleted value; then commit.
-/

/-- Response of the income-transaction delete handler. -/
inductive DelIncomeResult where
  | notFound
  | ok
deriving Repr, DecidableEq

/-- Row predicate of the ownership/type check of the delete handler. -/
def incomeRowMatches (u tid : Nat) (r : Item) : Bool :=
  r.id = tid && r.userId = u && r.«section» = "Income"

/-- The income-transaction delete transaction. -/
def deleteIncomeTransaction (st : PState) (u tid : Nat) : DelIncomeResult × PState :=
  match st.infodata.find? (incomeRowMatches u tid) with
  | none => (.notFound, st)
  | some row =>
    let amountToDeduct := row.value
    let newInfodata := st.infodata.filter (fun r => !(r.id = tid && r.userId = u))
    match st.users.find? (fun usr => usr.id = u) with
    | none => (.ok, ⟨st.users, newInfodata, st.nextId⟩)
    | some usr =>
      let newBalance := usr.balance.getD 0 - amountToDeduct
      (.ok, ⟨updateBalance st.users u newBalance, newInfodata, st.nextId⟩)

/-- C10: when an "Income" row with the given id belongs to the caller,
the delete succeeds, removes the targeted ledger row (and every ledger
row with that id and owner), and — in the same transaction — decreases
the caller's stored balance by exactly that row's value, a missing or
null stored balance counting as 0; when no such row exists (absent, not
owned, or not an "Income" row), the handler answers 404 and the state is
unchanged. -/
theorem deleteIncomeTransaction_spec (st : PState) (u tid : Nat)
    (usr : UserRow) (husr : st.users.find? (fun x => x.id = u) = some usr) :
    (∀ row, st.infodata.find? (incomeRowMatches u tid) = some row →
      (deleteIncomeTransaction st u tid).1 = DelIncomeResult.ok
      ∧ (deleteIncomeTransaction st u tid).2.infodata
          = st.infodata.filter (fun r => !(r.id = tid && r.userId = u))
      ∧ (∀ r ∈ (deleteIncomeTransaction st u tid).2.infodata,
          ¬(r.id = tid ∧ r.userId = u))
      ∧ ((deleteIncomeTransaction st u tid).2.users.find? (fun x => x.id = u)).map
          (fun x => x.balance) = some (some (usr.balance.getD 0 - row.value)))
    ∧ (st.infodata.find? (incomeRowMatches u tid) = none →
        deleteIncomeTransaction st u tid = (DelIncomeResult.notFound, st)) := by
  constructor
  · intro row hrow
    unfold deleteIncomeTransaction
    rw [hrow, husr]
    refine ⟨rfl, rfl, ?_, ?_⟩
    · intro r hr
      dsimp only at hr
      have hmem := List.mem_filter.mp hr
      have hneg := hmem.2
      simp only [Bool.not_eq_eq_eq_not, Bool.not_true, Bool.and_eq_false_imp,
        decide_eq_true_eq] at hneg
      rintro ⟨hid, huid⟩
      simp [hid, huid] at hneg
    · dsimp only
      rw [find_updateBalance, husr]
      rfl
  · intro hnone
    unfold deleteIncomeTransaction
    rw [hnone]

/-- Closed witness for C10: deleting income row 3 (value 40) of user 7,
whose stored balance is 100, leaves the ledger without the row and the
balance at 60. -/
theorem deleteIncomeTransaction_spec_witness :
    (deleteIncomeTransaction
        (PState.mk [⟨7, "e", some 100⟩] [⟨3, 7, "salary", 40, 0, "Income"⟩] 5) 7 3).1
      = DelIncomeResult.ok
    ∧ (deleteIncomeTransaction
        (PState.mk [⟨7, "e", some 100⟩] [⟨3, 7, "salary", 40, 0, "Income"⟩] 5) 7 3).2.infodata
      = (PState.mk [⟨7, "e", some 100⟩]
          [⟨3, 7, "salary", 40, 0, "Income"⟩] 5).infodata.filter
            (fun r => !(r.id = 3 && r.userId = 7))
    ∧ (∀ r ∈ (deleteIncomeTransaction
        (PState.mk [⟨7, "e", some 100⟩] [⟨3, 7, "salary", 40, 0, "Income"⟩] 5) 7 3).2.infodata,
        ¬(r.id = 3 ∧ r.userId = 7))
    ∧ ((deleteIncomeTransaction
        (PState.mk [⟨7, "e", some 100⟩] [⟨3, 7, "salary", 40, 0, "Income"⟩] 5) 7 3).2.users.find?
          (fun x => x.id = 7)).map (fun x => x.balance)
      = some (some ((UserRow.mk 7 "e" (some 100)).balance.getD 0
          - (Item.mk 3 7 "salary" 40 0 "Income").value)) :=
  (deleteIncomeTransaction_spec
      (PState.mk [⟨7, "e", some 100⟩] [⟨3, 7, "salary", 40, 0, "Income"⟩] 5) 7 3
      ⟨7, "e", some 100⟩ rfl).1 ⟨3, 7, "salary", 40, 0, "Income"⟩ rfl

/-! ## GET /items/summary/monthly and /summary/daily (expenseRoutes.js)

Monthly: the handler computes `startDate` = first day of the month
`months - 1` months before the current month, queries
`SELECT DATE_FORMAT(date, '%b') AS month, SUM(CASE WHEN section !=
'Income' THEN value ELSE 0 END) ... WHERE user_id = ? AND date >= ?
GROUP BY month`, generates the chronological list of the last `months`
month-name labels, and merges: each label gets the grouped sum for that
month NAME (`fetchedDataMap.get(label) || 0`), or 0.  Months are
modelled as indices `ym = year * 12 + month`; the `%b` name is `ym %
12`.  The grouped-sum-then-merge pipeline is fused into a per-label
filtered sum, which is exactly what the map lookup produces (a `0` group
sum and an absent group both yield 0 through `|| 0`).

Daily: `... DATE_FORMAT(date, '%Y-%m-%d') AS date, SUM(...) WHERE
user_id = ? AND date BETWEEN ? AND ? GROUP BY date`, merged over every
calendar day from `startDate` to `endDate` inclusive.  Days are modelled
as `Nat` day indices; the group key is the full date, so it identifies
its bucket uniquely (unlike the month name).
-/

/-- Ledger rows as read by the monthly summary: owner, month index
(`year*12 + month`), section and value. -/
structure MRow where
  userId : Nat
  ym : Nat
  «section» : String
  value : Int
deriving Repr, DecidableEq

/-- `CASE WHEN section != 'Income' THEN value ELSE 0 END`. -/
def expenseVal (r : MRow) : Int := if r.«section» = "Income" then 0 else r.value

/-- Same CASE expression over day-dated rows. -/
def expenseValItem (r : Item) : Int := if r.«section» = "Income" then 0 else r.value

/-- The chronological month-name labels built by the handler: for
`i = 0..months-1`, unshift the name of the month `i` months before the
current one. -/
def monthLabels (todayYM months : Nat) : List Nat :=
  ((List.range months).map (fun i => (todayYM - i) % 12)).reverse

/-- Value given to a label by the merge: the grouped sum, over the
user's rows dated on or after the window start, of all rows whose month
NAME equals the label. -/
def monthlyBucketValue (rows : List MRow) (u todayYM months l : Nat) : Int :=
  ((rows.filter (fun r =>
      r.userId = u && todayYM - (months - 1) ≤ r.ym && r.ym % 12 = l)).map expenseVal).sum

/-- The monthly summary response: one `(label, total_expenses)` pair per
generated label, in order. -/
def monthlySummary (rows : List MRow) (u todayYM months : Nat) : List (Nat × Int) :=
  (monthLabels todayYM months).map
    (fun l => (l, monthlyBucketValue rows u todayYM months l))

/-- The true expense sum of one calendar month of the window, as the
claim reads it: the user's rows of exactly that month. -/
def windowBucketSum (rows : List MRow) (u ym : Nat) : Int :=
  ((rows.filter (fun r => r.userId = u && r.ym = ym)).map expenseVal).sum

/-- The day labels generated by the handler's date loop: every day from
`startDay` to `endDay` inclusive. -/
def dailyLabels (startDay endDay : Nat) : List Nat :=
  (List.range (endDay + 1 - startDay)).map (fun i => startDay + i)

/-- Value given to a day by the merge: grouped sum of the user's rows in
the BETWEEN range whose date is that day. -/
def dailyBucketValue (rows : List Item) (u startDay endDay d : Nat) : Int :=
  ((rows.filter (fun r =>
      r.userId = u && (startDay ≤ r.date && r.date ≤ endDay) && r.date = d)).map
    expenseValItem).sum

/-- The daily summary response: one `(day, total_expenses)` pair per day
of the range, in order. -/
def dailySummary (rows : List Item) (u startDay endDay : Nat) : List (Nat × Int) :=
  (dailyLabels startDay endDay).map (fun d => (d, dailyBucketValue rows u startDay endDay d))

/-- The true expense sum of one day, as the claim reads it. -/
def windowDailySum (rows : List Item) (u d : Nat) : Int :=
  ((rows.filter (fun r => r.userId = u && r.date = d)).map expenseValItem).sum

/-- Counterexample to C5 as stated: with a 13-month window anchored at
month index 24 and a single 5-unit "Food" row in month 12 (thirteen
months earlier, same month name as month 24), the last bucket reports 5
although the sum of the user's rows in that month is 0 — the
month-name key merges both years, and the window's first and last labels
collide. -/
theorem monthlySummary_mergesYears_counterexample :
    (monthlySummary [⟨7, 12, "Food", 5⟩] 7 24 13)[12]? = some (0, 5)
    ∧ windowBucketSum [⟨7, 12, "Food", 5⟩] 7 (24 - (13 - 1) + 12) = 0
    ∧ ¬ (∀ i, i < 13 → (monthlySummary [⟨7, 12, "Food", 5⟩] 7 24 13)[i]?
        = some ((24 - (13 - 1) + i) % 12,
            windowBucketSum [⟨7, 12, "Food", 5⟩] 7 (24 - (13 - 1) + i))) := by
  refine ⟨by decide, by decide, ?_⟩
  intro h
  have h12 := h 12 (by norm_num)
  revert h12
  decide

/-- Two month indices of one window of at most 12 consecutive months
with the same month name are equal. -/
theorem mod12_window_inj {s a b : Nat} (ha1 : s ≤ a) (ha2 : a < s + 12)
    (hb1 : s ≤ b) (hb2 : b < s + 12) (h : a % 12 = b % 12) : a = b := by
  rcases Nat.le_total a b with hab | hba
  · have hdvd : 12 ∣ b - a := (Nat.modEq_iff_dvd' hab).mp h
    have hz : b - a = 0 := Nat.eq_zero_of_dvd_of_lt hdvd (by omega)
    omega
  · have hdvd : 12 ∣ a - b := (Nat.modEq_iff_dvd' hba).mp h.symm
    have hz : a - b = 0 := Nat.eq_zero_of_dvd_of_lt hdvd (by omega)
    omega

/-- The `i`-th generated month label is the name of the `i`-th month of
the window. -/
theorem monthLabels_getElem (todayYM months i : Nat) (hi : i < months)
    (hty : months - 1 ≤ todayYM) :
    (monthLabels todayYM months)[i]? = some ((todayYM - (months - 1) + i) % 12) := by
  unfold monthLabels
  rw [List.getElem?_reverse (by simpa using hi)]
  have hlen : ((List.range months).map (fun i => (todayYM - i) % 12)).length = months := by
    simp
  rw [hlen]
  rw [List.getElem?_map]
  rw [List.getElem?_range (by omega : months - 1 - i < months)]
  simp only [Option.map_some']
  congr 2
  omega

/-- C5 amended: the daily summary always has exactly one bucket per day
of the requested range, in chronological order with no gaps, each
holding the sum of the user's non-"Income" rows of that day (0 when
none); the monthly summary satisfies the analogous property provided the
window spans at most 12 months and no ledger row of the user is dated
after the current month (otherwise month-name keying merges distinct
years, as the counterexample shows). -/
theorem bucketedSummaries_fill_window (mrows : List MRow) (rows : List Item)
    (u todayYM months startDay endDay : Nat)
    (hm12 : months ≤ 12) (hty : months - 1 ≤ todayYM)
    (hpast : ∀ r ∈ mrows, r.userId = u → r.ym ≤ todayYM) :
    (monthlySummary mrows u todayYM months).length = months
    ∧ (∀ i, i < months →
        (monthlySummary mrows u todayYM months)[i]?
          = some ((todayYM - (months - 1) + i) % 12,
              windowBucketSum mrows u (todayYM - (months - 1) + i)))
    ∧ (dailySummary rows u startDay endDay).length = endDay + 1 - startDay
    ∧ (∀ i, i < endDay + 1 - startDay →
        (dailySummary rows u startDay endDay)[i]?
          = some (startDay + i, windowDailySum rows u (startDay + i))) := by
  refine ⟨?_, ?_, ?_, ?_⟩
  · simp [monthlySummary, monthLabels]
  · intro i hi
    unfold monthlySummary
    rw [List.getElem?_map, monthLabels_getElem todayYM months i hi hty]
    simp only [Option.map_some', Option.some.injEq]
    have hfeq : mrows.filter (fun r =>
        r.userId = u && todayYM - (months - 1) ≤ r.ym
          && r.ym % 12 = (todayYM - (months - 1) + i) % 12)
        = mrows.filter (fun r => r.userId = u && r.ym = todayYM - (months - 1) + i) := by
      apply List.filter_congr
      intro r hr
      by_cases hu : r.userId = u
      · by_cases hym : r.ym = todayYM - (months - 1) + i
        · have h1 : todayYM - (months - 1) ≤ r.ym := by omega
          have h2 : r.ym % 12 = (todayYM - (months - 1) + i) % 12 := by rw [hym]
          simp [hu, hym, h1, h2]
        · rcases Nat.lt_or_ge r.ym (todayYM - (months - 1)) with hlt | hge
          · have hn : ¬ (todayYM - (months - 1) ≤ r.ym) := by omega
            simp [hu, hym, hn]
          · have hle := hpast r hr hu
            have hmod : ¬ (r.ym % 12 = (todayYM - (months - 1) + i) % 12) := by
              intro hcontra
              exact hym (mod12_window_inj hge (by omega) (by omega) (by omega) hcontra)
            simp [hu, hym, hmod]
      · simp [hu]
    unfold monthlyBucketValue windowBucketSum
    rw [hfeq]
  · simp [dailySummary, dailyLabels]
  · intro i hi
    unfold dailySummary
    have hlab : (dailyLabels startDay endDay)[i]? = some (startDay + i) := by
      unfold dailyLabels
      rw [List.getElem?_map, List.getElem?_range hi]
      rfl
    rw [List.getElem?_map, hlab]
    simp only [Option.map_some', Option.some.injEq]
    have hfeq : rows.filter (fun r =>
        r.userId = u && (startDay ≤ r.date && r.date ≤ endDay) && r.date = startDay + i)
        = rows.filter (fun r => r.userId = u && r.date = startDay + i) := by
      apply List.filter_congr
      intro r hr
      by_cases hu : r.userId = u
      · by_cases hd : r.date = startDay + i
        · have h1 : startDay ≤ startDay + i := by omega
          have h2 : startDay + i ≤ endDay := by omega
          simp [hu, hd, h1, h2]
        · simp [hu, hd]
      · simp [hu]
    unfold dailyBucketValue windowDailySum
    rw [hfeq]

/-- Closed witness for the amended C5: a 2-month window anchored at
month 25 over one February-like row; the first bucket carries the row's
value and the second is 0, and a 3-day daily range fills every day. -/
theorem bucketedSummaries_fill_window_witness :
    (monthlySummary [⟨7, 24, "Food", 5⟩] 7 25 2).length = 2
    ∧ (∀ i, i < 2 →
        (monthlySummary [⟨7, 24, "Food", 5⟩] 7 25 2)[i]?
          = some ((25 - (2 - 1) + i) % 12,
              windowBucketSum [⟨7, 24, "Food", 5⟩] 7 (25 - (2 - 1) + i)))
    ∧ (dailySummary [⟨1, 7, "a", 3, 11, "Food"⟩] 7 10 12).length = 12 + 1 - 10
    ∧ (∀ i, i < 12 + 1 - 10 →
        (dailySummary [⟨1, 7, "a", 3, 11, "Food"⟩] 7 10 12)[i]?
          = some (10 + i, windowDailySum [⟨1, 7, "a", 3, 11, "Food"⟩] 7 (10 + i))) :=
  bucketedSummaries_fill_window [⟨7, 24, "Food", 5⟩] [⟨1, 7, "a", 3, 11, "Food"⟩]
    7 25 2 10 12 (by norm_num) (by norm_num)
    (by intro r hr hu; rcases List.mem_singleton.mp hr with rfl; norm_num)

end SpendWise
